import Mathlib

/-!
Verification of the chat-example repository's wire codec and server logic.

The definitions below are a shallow embedding of the C++ sources:
* `src/include/chat_example/packet.hh` — the typed packet codec
  (`serialize`, `createPacketFromData`, `Packet::preparePacketForSending`),
* `src/include/chat-example/packet.hh` — the older codec variant
  (fresh-buffer `serialize`, free-function `preparePacketForSending`),
* `src/src/chatserver.cc` — session registry, packet dispatch, broadcast,
  credential store, `ChatSession` header validation and `stop`,
* `src/src/chatclient.cc` — client header validation and `close`.

Bytes are modelled as `Nat` (every C++ byte is a value `< 256`; the theorems
hold for all `Nat`), byte buffers as `List Nat`, and `std::string` contents as
their raw byte lists.  Machine-width casts are explicit (`% 2 ^ 32` for
`static_cast<uint32_t>`).  Reads that the C++ performs past the end of a
buffer (unchecked `memcpy` in `readFromBuffer` / `readString`) are marked by
a dedicated `outOfBounds` result instead of returning garbage.
-/

namespace ChatExample

/-- Embedding of `static_cast<uint32_t>` on a non-negative quantity. -/
def u32cast (n : Nat) : Nat := n % 2 ^ 32

/-- The four little-endian bytes a `memcpy` of a `uint32_t` value writes
(`Packet::writeToBuffer<uint32_t>`). -/
def toLE32 (n : Nat) : List Nat :=
  [n % 256, n / 256 % 256, n / 65536 % 256, n / 16777216 % 256]

/-- The `uint32_t` value a `memcpy` from four little-endian bytes produces
(`Packet::readFromBuffer<uint32_t>`); any other shape is unreachable at the
call sites. -/
def fromLE4 (l : List Nat) : Nat :=
  match l with
  | [b0, b1, b2, b3] => b0 + 256 * b1 + 65536 * b2 + 16777216 * b3
  | _ => 0

/-- Embedding of `Packet::writeString`: append `static_cast<uint32_t>(str.length())` and
then the raw bytes of the string to the buffer. -/
def writeString (buffer : List Nat) (s : List Nat) : List Nat :=
  buffer ++ toLE32 (u32cast s.length) ++ s

/-- The seven packet kinds of `packet.hh` as one closed variant, with the
string fields each class carries. -/
inductive PacketV where
  | login (username password : List Nat)
  | createUser (username password : List Nat)
  | chatMessage (sender message : List Nat)
  | loginSuccess
  | loginFailed
  | accountCreated
  | accountExists
deriving DecidableEq, Repr

/-- The numeric value of the `PacketType` enum returned by `getType()`. -/
def PacketV.getType : PacketV → Nat
  | .login _ _ => 0
  | .createUser _ _ => 1
  | .chatMessage _ _ => 2
  | .loginSuccess => 3
  | .loginFailed => 4
  | .accountCreated => 5
  | .accountExists => 6

/-- The `serialize(std::vector<uint8_t>& buffer)` member of each packet class
in `chat_example/packet.hh`: append the type byte, then each string field via
`writeString`, onto an existing buffer. -/
def serializeAppend (buffer : List Nat) (p : PacketV) : List Nat :=
  match p with
  | .login u pw => writeString (writeString (buffer ++ [0]) u) pw
  | .createUser u pw => writeString (writeString (buffer ++ [1]) u) pw
  | .chatMessage s m => writeString (writeString (buffer ++ [2]) s) m
  | .loginSuccess => buffer ++ [3]
  | .loginFailed => buffer ++ [4]
  | .accountCreated => buffer ++ [5]
  | .accountExists => buffer ++ [6]

/-- The serialized payload of a packet (what `serialize` appends). -/
def serializePayload (p : PacketV) : List Nat := serializeAppend [] p

/-- Embedding of `Packet::preparePacketForSending` in `chat_example/packet.hh`: write a
4-byte placeholder `uint32_t 0`, serialize the packet after it, then `memcpy`
`static_cast<uint32_t>(packetSize)` over the placeholder, where `packetSize`
is how many bytes `serialize` appended. -/
def preparePacketForSending (p : PacketV) : List Nat :=
  let buf := serializeAppend (toLE32 0) p
  let packetSize := buf.length - (toLE32 0).length
  toLE32 (u32cast packetSize) ++ buf.drop 4

/-- The `serialize()` member of each packet class in the older
`chat-example/packet.hh` variant: build a fresh buffer from the type byte and
the string fields. -/
def serializeDash (p : PacketV) : List Nat :=
  match p with
  | .login u pw => writeString (writeString ([] ++ [0]) u) pw
  | .createUser u pw => writeString (writeString ([] ++ [1]) u) pw
  | .chatMessage s m => writeString (writeString ([] ++ [2]) s) m
  | .loginSuccess => [] ++ [3]
  | .loginFailed => [] ++ [4]
  | .accountCreated => [] ++ [5]
  | .accountExists => [] ++ [6]

/-- The free function `preparePacketForSending` in `chat-example/packet.hh`:
serialize into a fresh vector, then build the frame as
`memcpy(size) || memcpy(serialized bytes)`. -/
def preparePacketDash (p : PacketV) : List Nat :=
  let serialized := serializeDash p
  toLE32 (u32cast serialized.length) ++ serialized

/-- Embedding of `Packet::readFromBuffer<uint32_t>`: `memcpy` four consecutive bytes at
`offset` into a `uint32_t` and advance the offset.  The C++ performs the copy
unconditionally; when it would read past the end of the buffer the embedding
answers `none` to mark the out-of-bounds access. -/
def readFromBufferU32 (data : List Nat) (offset : Nat) : Option (Nat × Nat) :=
  if offset + 4 ≤ data.length then
    some (fromLE4 ((data.drop offset).take 4), offset + 4)
  else none

/-- Embedding of `Packet::readString`: read a `uint32_t` length, then take that many raw
bytes.  `none` marks the positions where the C++ reads out of bounds. -/
def readString (data : List Nat) (offset : Nat) : Option (List Nat × Nat) :=
  match readFromBufferU32 data offset with
  | none => none
  | some (len, o) =>
    if o + len ≤ data.length then some ((data.drop o).take len, o + len)
    else none

/-- The common `deserialize` body of `LoginPacket` / `CreateUserPacket` /
`ChatMessagePacket`: skip the type byte (offset 1) and read two strings. -/
def deserializeTwoStringFields (data : List Nat) : Option (List Nat × List Nat) :=
  match readString data 1 with
  | none => none
  | some (a, o) =>
    match readString data o with
    | none => none
    | some (b, _) => some (a, b)

/-- Outcome of `createPacketFromData`: the null pointer, a successfully
deserialized packet, or a marker that `deserialize` read past the end of the
buffer (undefined behaviour in the C++). -/
inductive DeserializeResult where
  | noPacket
  | outOfBounds
  | packet (p : PacketV)
deriving DecidableEq, Repr

/-- Embedding of `createPacketFromData` (identical in both `packet.hh` variants): empty
data gives the null pointer; otherwise switch on the first byte, defaulting
to the null pointer for unknown tags, and run the chosen class's
`deserialize` over the data. -/
def createPacketFromData (data : List Nat) : DeserializeResult :=
  match data with
  | [] => .noPacket
  | t :: _ =>
    if t = 0 then
      match deserializeTwoStringFields data with
      | some (u, pw) => .packet (.login u pw)
      | none => .outOfBounds
    else if t = 1 then
      match deserializeTwoStringFields data with
      | some (u, pw) => .packet (.createUser u pw)
      | none => .outOfBounds
    else if t = 2 then
      match deserializeTwoStringFields data with
      | some (s, m) => .packet (.chatMessage s m)
      | none => .outOfBounds
    else if t = 3 then .packet .loginSuccess
    else if t = 4 then .packet .loginFailed
    else if t = 5 then .packet .accountCreated
    else if t = 6 then .packet .accountExists
    else .noPacket

/-! ### Basic codec lemmas -/

theorem toLE32_length (n : Nat) : (toLE32 n).length = 4 := rfl

theorem fromLE4_toLE32 (n : Nat) : fromLE4 (toLE32 n) = n % 2 ^ 32 := by
  show n % 256 + 256 * (n / 256 % 256) + 65536 * (n / 65536 % 256)
      + 16777216 * (n / 16777216 % 256) = n % 2 ^ 32
  have hpow : (2 : Nat) ^ 32 = 4294967296 := by norm_num
  rw [hpow]
  omega

theorem fromLE4_toLE32_u32cast (n : Nat) : fromLE4 (toLE32 (u32cast n)) = u32cast n := by
  rw [fromLE4_toLE32]
  simp only [u32cast]
  omega

theorem serializeAppend_eq (buffer : List Nat) (p : PacketV) :
    serializeAppend buffer p = buffer ++ serializePayload p := by
  cases p <;> simp [serializeAppend, serializePayload, writeString, List.append_assoc]

theorem readFromBufferU32_at (pre rest : List Nat) (n off : Nat) (hoff : off = pre.length) :
    readFromBufferU32 (pre ++ (toLE32 n ++ rest)) off = some (n % 2 ^ 32, off + 4) := by
  subst hoff
  unfold readFromBufferU32
  have hlen : (pre ++ (toLE32 n ++ rest)).length = pre.length + (4 + rest.length) := by
    simp [toLE32_length]
  rw [if_pos (by omega)]
  have hdrop : (pre ++ (toLE32 n ++ rest)).drop pre.length = toLE32 n ++ rest :=
    List.drop_left _ _
  have htake : (toLE32 n ++ rest).take 4 = toLE32 n := by
    have h := List.take_left (toLE32 n) rest
    simpa [toLE32_length] using h
  rw [hdrop, htake, fromLE4_toLE32]

theorem readString_at (pre s rest : List Nat) (off : Nat) (hoff : off = pre.length)
    (hs : s.length < 2 ^ 32) :
    readString (pre ++ (toLE32 (u32cast s.length) ++ (s ++ rest))) off
      = some (s, off + 4 + s.length) := by
  have hread := readFromBufferU32_at pre (s ++ rest) (u32cast s.length) off hoff
  have hcast : u32cast s.length % 2 ^ 32 = s.length := by
    simp only [u32cast]
    omega
  rw [hcast] at hread
  simp only [readString, hread]
  have hlen : (pre ++ (toLE32 (u32cast s.length) ++ (s ++ rest))).length
      = pre.length + (4 + (s.length + rest.length)) := by
    simp [toLE32_length]
  rw [if_pos (by rw [hlen]; omega)]
  have hgroup : pre ++ (toLE32 (u32cast s.length) ++ (s ++ rest))
      = (pre ++ toLE32 (u32cast s.length)) ++ (s ++ rest) := by
    simp [List.append_assoc]
  have hdrop : ((pre ++ toLE32 (u32cast s.length)) ++ (s ++ rest)).drop (off + 4)
      = s ++ rest := by
    have h := List.drop_left (pre ++ toLE32 (u32cast s.length)) (s ++ rest)
    rw [hoff]
    simpa [toLE32_length] using h
  have htake : (s ++ rest).take s.length = s := List.take_left s rest
  rw [hgroup, hdrop, htake]

theorem deserializeTwoStringFields_spec (t : Nat) (a b : List Nat)
    (ha : a.length < 2 ^ 32) (hb : b.length < 2 ^ 32) :
    deserializeTwoStringFields
      (t :: (toLE32 (u32cast a.length) ++ (a ++ (toLE32 (u32cast b.length) ++ (b ++ [])))))
      = some (a, b) := by
  have h1 := readString_at [t] a (toLE32 (u32cast b.length) ++ (b ++ [])) 1 rfl ha
  have h2 := readString_at ([t] ++ (toLE32 (u32cast a.length) ++ a)) b [] (1 + 4 + a.length)
    (by simp [toLE32_length]; omega) hb
  rw [show ([t] ++ (toLE32 (u32cast a.length) ++ a)) ++ (toLE32 (u32cast b.length) ++ (b ++ []))
      = [t] ++ (toLE32 (u32cast a.length) ++ (a ++ (toLE32 (u32cast b.length) ++ (b ++ []))))
      from by simp [List.append_assoc]] at h2
  simp only [List.singleton_append] at h1 h2
  simp only [deserializeTwoStringFields, h1, h2]

/-- Fields small enough for the 32-bit length cast in `writeString` to be
lossless: every string a C++ program with under 4 GiB of payload constructs. -/
def fieldsOk (p : PacketV) : Bool :=
  match p with
  | .login u pw => decide (u.length < 2 ^ 32) && decide (pw.length < 2 ^ 32)
  | .createUser u pw => decide (u.length < 2 ^ 32) && decide (pw.length < 2 ^ 32)
  | .chatMessage s m => decide (s.length < 2 ^ 32) && decide (m.length < 2 ^ 32)
  | _ => true

theorem toLE32_zero : toLE32 0 = [0, 0, 0, 0] := rfl

/-- Claim C1 (amended): for every packet whose string fields are each shorter
than `2 ^ 32` bytes, deserializing the serialized payload with
`createPacketFromData` yields a packet of the same kind with equal fields;
kind-only packets round-trip from their single tag byte. -/
theorem createPacketFromData_roundtrip (p : PacketV) (h : fieldsOk p = true) :
    createPacketFromData (serializePayload p) = .packet p := by
  cases p with
  | login u pw =>
    simp only [fieldsOk, Bool.and_eq_true, decide_eq_true_eq] at h
    have hdata : serializePayload (.login u pw)
        = 0 :: (toLE32 (u32cast u.length) ++ (u ++ (toLE32 (u32cast pw.length) ++ (pw ++ [])))) := by
      simp [serializePayload, serializeAppend, writeString, List.append_assoc]
    rw [hdata]
    have hdes := deserializeTwoStringFields_spec 0 u pw h.1 h.2
    simp only [List.append_nil] at hdes
    simp [createPacketFromData, hdes]
  | createUser u pw =>
    simp only [fieldsOk, Bool.and_eq_true, decide_eq_true_eq] at h
    have hdata : serializePayload (.createUser u pw)
        = 1 :: (toLE32 (u32cast u.length) ++ (u ++ (toLE32 (u32cast pw.length) ++ (pw ++ [])))) := by
      simp [serializePayload, serializeAppend, writeString, List.append_assoc]
    rw [hdata]
    have hdes := deserializeTwoStringFields_spec 1 u pw h.1 h.2
    simp only [List.append_nil] at hdes
    simp [createPacketFromData, hdes]
  | chatMessage s m =>
    simp only [fieldsOk, Bool.and_eq_true, decide_eq_true_eq] at h
    have hdata : serializePayload (.chatMessage s m)
        = 2 :: (toLE32 (u32cast s.length) ++ (s ++ (toLE32 (u32cast m.length) ++ (m ++ [])))) := by
      simp [serializePayload, serializeAppend, writeString, List.append_assoc]
    rw [hdata]
    have hdes := deserializeTwoStringFields_spec 2 s m h.1 h.2
    simp only [List.append_nil] at hdes
    simp [createPacketFromData, hdes]
  | loginSuccess => rfl
  | loginFailed => rfl
  | accountCreated => rfl
  | accountExists => rfl

/-- Witness for C1's amended round-trip at a concrete packet. -/
theorem createPacketFromData_roundtrip_witness :
    fieldsOk (.login [98, 111, 98] [120]) = true ∧
      createPacketFromData (serializePayload (.login [98, 111, 98] [120]))
        = .packet (.login [98, 111, 98] [120]) :=
  ⟨by decide, createPacketFromData_roundtrip (.login [98, 111, 98] [120]) (by decide)⟩

/-- A `Login` whose username length is a multiple of `2 ^ 32` deserializes to
something else: the truncated 32-bit length field reads back as `0`, so the
username comes back empty and the password is re-parsed out of the username's
bytes.  Stated over variables pinned by hypotheses so that no tactic ever
materializes the `2 ^ 32`-element list. -/
theorem roundtrip_truncation (N k m : Nat) (hN : N = 2 ^ 32)
    (hk : k = 1094795585) (hm : m = 3200171707) :
    createPacketFromData (serializePayload (.login (List.replicate N 65) []))
      = .packet (.login [] (List.replicate k 65)) := by
  have hc0 : u32cast 0 = 0 := rfl
  have hle0 : toLE32 0 = [0, 0, 0, 0] := rfl
  have hrep4 : List.replicate 4 (65 : Nat) = [65, 65, 65, 65] := rfl
  have hsum : N = 4 + (k + m) := by
    rw [hN, hk, hm]
    norm_num
  have hsplit : List.replicate N (65 : Nat)
      = List.replicate 4 65 ++ (List.replicate k 65 ++ List.replicate m 65) := by
    rw [hsum, List.replicate_add, List.replicate_add]
  have hulen : u32cast (List.replicate N (65 : Nat)).length = 0 := by
    rw [List.length_replicate, hN]
    simp [u32cast]
  have hdata : serializePayload (.login (List.replicate N 65) [])
      = 0 :: 0 :: 0 :: 0 :: 0 :: 65 :: 65 :: 65 :: 65 ::
        (List.replicate k 65 ++ (List.replicate m 65 ++ [0, 0, 0, 0])) := by
    rw [serializePayload, serializeAppend, writeString, writeString, hulen]
    conv_lhs => rw [hsplit]
    simp only [hrep4, hc0, hle0, List.length_nil, List.nil_append, List.cons_append,
      List.append_nil, List.append_assoc]
  have h1 := readString_at [0] []
      (65 :: 65 :: 65 :: 65 :: (List.replicate k 65 ++ (List.replicate m 65 ++ [0, 0, 0, 0])))
      1 rfl (by norm_num)
  have h2 := readString_at [0, 0, 0, 0, 0] (List.replicate k (65 : Nat))
      (List.replicate m (65 : Nat) ++ [0, 0, 0, 0]) (1 + 4 + 0)
      (by simp) (by rw [List.length_replicate, hk]; norm_num)
  have htk : toLE32 (u32cast (List.replicate k (65 : Nat)).length) = [65, 65, 65, 65] := by
    rw [List.length_replicate, hk]
    rfl
  rw [htk] at h2
  simp only [List.length_nil, hc0, hle0, List.length_replicate, List.nil_append,
    List.cons_append, List.append_assoc] at h1 h2
  have hdes : deserializeTwoStringFields
      (0 :: 0 :: 0 :: 0 :: 0 :: 65 :: 65 :: 65 :: 65 ::
        (List.replicate k 65 ++ (List.replicate m 65 ++ [0, 0, 0, 0])))
      = some ([], List.replicate k 65) := by
    simp only [deserializeTwoStringFields, h1, h2]
  rw [hdata]
  simp only [createPacketFromData, hdes, if_pos]

/-- Counterexample to C1 as stated: the `Login` packet whose username is
`2 ^ 32` bytes of `'A'` (constructible on a 64-bit host) does not round-trip
field-for-field — the `uint32_t` cast in `writeString` truncates its length
prefix to `0`. -/
theorem createPacketFromData_roundtrip_counterexample :
    createPacketFromData (serializePayload (.login (List.replicate (2 ^ 32) 65) []))
      ≠ .packet (.login (List.replicate (2 ^ 32) 65) []) := by
  intro hcontra
  rw [roundtrip_truncation (2 ^ 32) 1094795585 3200171707 rfl rfl rfl] at hcontra
  simp only [DeserializeResult.packet.injEq, PacketV.login.injEq] at hcontra
  have hlen := congrArg List.length hcontra.1
  rw [List.length_nil, List.length_replicate] at hlen
  exact absurd hlen.symm (by norm_num)

theorem preparePacketForSending_eq (p : PacketV) :
    preparePacketForSending p
      = toLE32 (u32cast (serializePayload p).length) ++ serializePayload p := by
  show toLE32 (u32cast ((serializeAppend (toLE32 0) p).length - (toLE32 0).length))
      ++ (serializeAppend (toLE32 0) p).drop 4
      = toLE32 (u32cast (serializePayload p).length) ++ serializePayload p
  rw [serializeAppend_eq]
  have hdrop : (toLE32 0 ++ serializePayload p).drop 4 = serializePayload p := by
    have h := List.drop_left (toLE32 0) (serializePayload p)
    simpa [toLE32_length] using h
  have hlen : (toLE32 0 ++ serializePayload p).length - (toLE32 0).length
      = (serializePayload p).length := by
    simp [toLE32_length]
  rw [hdrop, hlen]

theorem serializePayload_head (p : PacketV) :
    (serializePayload p).head? = some p.getType := by
  cases p <;> simp [serializePayload, serializeAppend, writeString, PacketV.getType]

/-- Claim C8 (amended): the frame built by `Packet::preparePacketForSending`
is a 4-byte little-endian prefix holding the payload length reduced modulo
`2 ^ 32` (the exact length whenever the payload is shorter than `2 ^ 32`
bytes), followed by exactly the serialized payload, whose first byte is the
packet's numeric kind tag. -/
theorem preparePacket_frame_shape (p : PacketV) :
    preparePacketForSending p
        = toLE32 (u32cast (serializePayload p).length) ++ serializePayload p
      ∧ (serializePayload p).head? = some p.getType
      ∧ ((serializePayload p).length < 2 ^ 32 →
          fromLE4 ((preparePacketForSending p).take 4) = (serializePayload p).length) := by
  refine ⟨preparePacketForSending_eq p, serializePayload_head p, fun h => ?_⟩
  rw [preparePacketForSending_eq p]
  have htake : (toLE32 (u32cast (serializePayload p).length) ++ serializePayload p).take 4
      = toLE32 (u32cast (serializePayload p).length) := by
    have ht := List.take_left (toLE32 (u32cast (serializePayload p).length)) (serializePayload p)
    simpa [toLE32_length] using ht
  rw [htake, fromLE4_toLE32]
  simp only [u32cast]
  omega

/-- Witness for C8's amended frame-shape theorem at a concrete packet. -/
theorem preparePacket_frame_shape_witness :
    (serializePayload .loginSuccess).length < 2 ^ 32 ∧
      fromLE4 ((preparePacketForSending .loginSuccess).take 4)
        = (serializePayload .loginSuccess).length :=
  ⟨by decide, (preparePacket_frame_shape .loginSuccess).2.2 (by decide)⟩

/-- At a payload of `2 ^ 32 + 9` bytes the 4-byte prefix wraps to `9`.
Stated over a variable pinned by a hypothesis to keep the big list symbolic. -/
theorem frame_length_truncation (N : Nat) (hN : N = 2 ^ 32) :
    fromLE4 ((preparePacketForSending (.login (List.replicate N 65) [])).take 4) = 9
      ∧ (serializePayload (.login (List.replicate N 65) [])).length = N + 9 := by
  have hlen : (serializePayload (.login (List.replicate N 65) [])).length = N + 9 := by
    simp [serializePayload, serializeAppend, writeString, toLE32, u32cast]
  refine ⟨?_, hlen⟩
  rw [preparePacketForSending_eq]
  have htake := List.take_left
    (toLE32 (u32cast (serializePayload (.login (List.replicate N 65) [])).length))
    (serializePayload (.login (List.replicate N 65) []))
  rw [show (toLE32 (u32cast (serializePayload (.login (List.replicate N 65) [])).length)).length
      = 4 from toLE32_length _] at htake
  rw [htake, fromLE4_toLE32, hlen, hN]
  simp only [u32cast]
  norm_num

/-- Counterexample to C8 as stated: for the `Login` packet with a
`2 ^ 32`-byte username the frame's leading 4 bytes decode to `9`, not to the
payload's exact byte length `2 ^ 32 + 9`. -/
theorem preparePacket_frame_counterexample :
    fromLE4 ((preparePacketForSending (.login (List.replicate (2 ^ 32) 65) [])).take 4)
      ≠ (serializePayload (.login (List.replicate (2 ^ 32) 65) [])).length := by
  have h := frame_length_truncation (2 ^ 32) rfl
  rw [h.1, h.2]
  norm_num

theorem serializeDash_eq (p : PacketV) : serializeDash p = serializePayload p := by
  cases p <;> rfl

/-- Claim C10: the two historical codec variants frame identically — the
placeholder-patching `Packet::preparePacketForSending` of
`chat_example/packet.hh` and the serialize-then-copy free function of
`chat-example/packet.hh` produce byte-for-byte equal output for every
packet. -/
theorem preparePacket_variants_agree (p : PacketV) :
    preparePacketDash p = preparePacketForSending p := by
  rw [preparePacketForSending_eq]
  unfold preparePacketDash
  rw [serializeDash_eq]

theorem readString_some_bounds (data : List Nat) (off : Nat) (a : List Nat) (o : Nat)
    (h : readString data off = some (a, o)) :
    off + 4 ≤ data.length ∧ off + 4 ≤ o ∧ o ≤ data.length := by
  unfold readString readFromBufferU32 at h
  by_cases hc : off + 4 ≤ data.length
  · rw [if_pos hc] at h
    dsimp only at h
    by_cases hc2 : off + 4 + fromLE4 ((data.drop off).take 4) ≤ data.length
    · rw [if_pos hc2] at h
      have ho : o = off + 4 + fromLE4 ((data.drop off).take 4) := by
        injection h with h1
        injection h1 with h2 h3
        exact h3.symm
      omega
    · rw [if_neg hc2] at h
      exact absurd h (by simp)
  · rw [if_neg hc] at h
    exact absurd h (by simp)

theorem deserializeTwoStringFields_short (data : List Nat) (h : data.length < 9) :
    deserializeTwoStringFields data = none := by
  unfold deserializeTwoStringFields
  rcases hr1 : readString data 1 with _ | ⟨a, o⟩
  · rfl
  · have hb := readString_some_bounds data 1 a o hr1
    have hr2 : readString data o = none := by
      unfold readString readFromBufferU32
      rw [if_neg (by omega)]
    dsimp only
    rw [hr2]

/-- Claim C2 (amended): an empty buffer deserializes to the null no-packet
result; a non-empty buffer whose first byte is not one of the seven tags
yields that same null result (there is no distinct `MalformedPacket` error);
a buffer tagged `Login`/`CreateUser`/`ChatMessage` but shorter than the
9 bytes its two string headers demand makes `deserialize` read out of bounds
instead of reporting an error; a status tag (3–6) succeeds from the tag byte
alone. -/
theorem createPacketFromData_error_behaviour :
    createPacketFromData [] = .noPacket
      ∧ (∀ t rest, 6 < t → createPacketFromData (t :: rest) = .noPacket)
      ∧ (∀ t rest, t ≤ 2 → (t :: rest).length < 9 →
          createPacketFromData (t :: rest) = .outOfBounds)
      ∧ (∀ rest, createPacketFromData (3 :: rest) = .packet .loginSuccess)
      ∧ (∀ rest, createPacketFromData (4 :: rest) = .packet .loginFailed)
      ∧ (∀ rest, createPacketFromData (5 :: rest) = .packet .accountCreated)
      ∧ (∀ rest, createPacketFromData (6 :: rest) = .packet .accountExists) := by
  refine ⟨rfl, ?_, ?_, fun rest => rfl, fun rest => rfl, fun rest => rfl, fun rest => rfl⟩
  · intro t rest ht
    unfold createPacketFromData
    dsimp only
    rw [if_neg (by omega), if_neg (by omega), if_neg (by omega), if_neg (by omega),
      if_neg (by omega), if_neg (by omega), if_neg (by omega)]
  · intro t rest ht hlen
    have hshort := deserializeTwoStringFields_short (t :: rest) hlen
    unfold createPacketFromData
    dsimp only
    interval_cases t <;> simp [hshort]

/-- Witness for C2's amended theorem at concrete buffers. -/
theorem createPacketFromData_error_behaviour_witness :
    6 < 255 ∧ createPacketFromData [255] = .noPacket
      ∧ 0 ≤ 2 ∧ ([0] : List Nat).length < 9 ∧ createPacketFromData [0] = .outOfBounds :=
  ⟨by decide, createPacketFromData_error_behaviour.2.1 255 [] (by decide),
    by decide, by decide, createPacketFromData_error_behaviour.2.2.1 0 [] (by decide) (by decide)⟩

/-- Counterexample to C2 as stated: the unknown tag `255` yields exactly the
same null result as the empty buffer — not a distinct `MalformedPacket`
error — and the truncated `Login` buffer `[0]` makes `deserialize` read out
of bounds instead of failing cleanly. -/
theorem createPacketFromData_error_counterexample :
    createPacketFromData [255] = createPacketFromData []
      ∧ createPacketFromData [255] = .noPacket
      ∧ createPacketFromData [0] = .outOfBounds := by
  refine ⟨rfl, rfl, ?_⟩
  decide

/-! ### Connection pipeline header validation (`do_read_header`) -/

/-- What a header-completion handler does next: tear the connection down, or
resize `read_msg_` and issue the body read of exactly that many bytes. -/
inductive HeaderAction where
  | closeConnection
  | readBody (n : Nat)
deriving DecidableEq, Repr

/-- Embedding of `ChatSession::do_read_header` in `chatserver.cc`: on a completed 4-byte
header, leave the server (closing the session) when
`next_packet_size_ > 1024 * 1024`, otherwise resize the body buffer to
`next_packet_size_` and read exactly that many bytes. -/
def serverHeaderDecision (len : Nat) : HeaderAction :=
  if 1024 * 1024 < len then .closeConnection else .readBody len

/-- Embedding of `ChatClient::do_read_header` in `chatclient.cc`: same validation,
closing the client on violation. -/
def clientHeaderDecision (len : Nat) : HeaderAction :=
  if 1024 * 1024 < len then .closeConnection else .readBody len

/-- Claim C3 (amended): both header handlers close the connection for any
declared length above 1 MiB without issuing a body read, and for any length
of at most 1 MiB — zero included — they proceed to a body read of exactly
that many bytes; a zero length is not rejected. -/
theorem headerValidation (len : Nat) :
    (1024 * 1024 < len →
        serverHeaderDecision len = .closeConnection
          ∧ clientHeaderDecision len = .closeConnection)
      ∧ (len ≤ 1024 * 1024 →
          serverHeaderDecision len = .readBody len
            ∧ clientHeaderDecision len = .readBody len) := by
  constructor
  · intro h
    simp [serverHeaderDecision, clientHeaderDecision, h]
  · intro h
    simp [serverHeaderDecision, clientHeaderDecision, Nat.not_lt.mpr h]

/-- Witness for C3's amended theorem at concrete lengths. -/
theorem headerValidation_witness :
    (1024 * 1024 < 1048577 ∧ serverHeaderDecision 1048577 = .closeConnection)
      ∧ (5 ≤ 1024 * 1024 ∧ clientHeaderDecision 5 = .readBody 5) :=
  ⟨⟨by decide, ((headerValidation 1048577).1 (by decide)).1⟩,
    ⟨by decide, ((headerValidation 5).2 (by decide)).2⟩⟩

/-- Counterexample to C3 as stated: a declared length of zero is accepted —
both sides proceed to a zero-byte body read instead of closing the
connection. -/
theorem headerValidation_counterexample :
    serverHeaderDecision 0 = .readBody 0 ∧ clientHeaderDecision 0 = .readBody 0
      ∧ HeaderAction.readBody 0 ≠ HeaderAction.closeConnection := by
  decide

/-! ### `ChatClient::close` and `ChatSession::stop` -/

/-- The client-connection state `close()` touches: the `closed_` flag, the
socket, and how many times `on_disconnected` has fired. -/
structure ClientConnState where
  closed : Bool
  socketCloseCalls : Nat
  disconnectedEmits : Nat
deriving DecidableEq, Repr

/-- Embedding of `ChatClient::close`: guarded by `closed_` — on the first call set the
flag, close the socket and emit `on_disconnected`; afterwards do nothing. -/
def clientClose (st : ClientConnState) : ClientConnState :=
  if st.closed then st
  else
    { closed := true,
      socketCloseCalls := st.socketCloseCalls + 1,
      disconnectedEmits := st.disconnectedEmits + 1 }

/-- The socket operations `ChatSession::stop` performs, counted. -/
structure SessionSocketState where
  shutdownCalls : Nat
  closeCalls : Nat
deriving DecidableEq, Repr

/-- Embedding of `ChatSession::stop` in `chatserver.cc`: unconditionally call
`socket_.shutdown(...)` then `socket_.close()` — there is no closed-flag
guard, so every invocation performs both socket operations again. -/
def sessionStop (st : SessionSocketState) : SessionSocketState :=
  { shutdownCalls := st.shutdownCalls + 1, closeCalls := st.closeCalls + 1 }

/-- Claim C9 (amended): the client's `close` is idempotent — a second call
leaves the state untouched — and emits exactly one `on_disconnected` per
connection through the close path; the server-side `ChatSession::stop`,
by contrast, has no guard and re-issues the socket shutdown/close pair on
every call. -/
theorem close_idempotence (st : ClientConnState) (ss : SessionSocketState) :
    clientClose (clientClose st) = clientClose st
      ∧ (st.closed = false →
          (clientClose st).disconnectedEmits = st.disconnectedEmits + 1
            ∧ (clientClose st).closed = true)
      ∧ (st.closed = true → clientClose st = st)
      ∧ (sessionStop ss).shutdownCalls = ss.shutdownCalls + 1
      ∧ (sessionStop ss).closeCalls = ss.closeCalls + 1 := by
  refine ⟨?_, ?_, ?_, rfl, rfl⟩
  · by_cases h : st.closed <;> simp [clientClose, h]
  · intro h
    simp [clientClose, h]
  · intro h
    simp [clientClose, h]

/-- Witness for C9's amended theorem at a concrete fresh connection. -/
theorem close_idempotence_witness :
    clientClose (clientClose ⟨false, 0, 0⟩) = clientClose ⟨false, 0, 0⟩
      ∧ (clientClose ⟨false, 0, 0⟩).disconnectedEmits = 0 + 1 :=
  ⟨(close_idempotence ⟨false, 0, 0⟩ ⟨0, 0⟩).1,
    ((close_idempotence ⟨false, 0, 0⟩ ⟨0, 0⟩).2.1 rfl).1⟩

/-- Counterexample to C9 as stated: calling `ChatSession::stop` twice is not
effect-free after the first call — the second call performs the socket
shutdown/close pair again (in Asio, a shutdown on the already-closed socket
raises an error), so the two-call state differs from the one-call state. -/
theorem close_idempotence_counterexample :
    sessionStop (sessionStop ⟨0, 0⟩) ≠ sessionStop ⟨0, 0⟩ := by
  decide

/-! ### Session registry and packet dispatch (`chatserver.cc`) -/

/-- Association-list lookup, the embedding of `std::map::find` /
per-session member lookup. -/
def alookup {α β : Type} [DecidableEq α] (l : List (α × β)) (k : α) : Option β :=
  match l with
  | [] => none
  | (k', v) :: rest => if k' = k then some v else alookup rest k

/-- Server state: the registered sessions (`participants_`, a `std::set`, so
the list is duplicate-free in every reachable state), each session's
`username_` member (absent entry = the default-constructed empty string),
and the credential store `user_credentials_`.  Sessions are identified by
stable ids standing for the `shared_ptr` identities. -/
structure ServerState where
  participants : List Nat
  usernames : List (Nat × List Nat)
  userCredentials : List (List Nat × List Nat)
deriving DecidableEq, Repr

/-- Embedding of `ChatSession::get_username`: a session's `username_`, empty until
`set_username` ran. -/
def get_username (st : ServerState) (s : Nat) : List Nat :=
  match alookup st.usernames s with
  | some u => u
  | none => []

/-- Embedding of `ChatSession::set_username`. -/
def set_username (st : ServerState) (s : Nat) (u : List Nat) : ServerState :=
  { st with usernames := (s, u) :: st.usernames }

/-- Embedding of `ChatServer::authenticate_user`: find the username and compare the
stored password. -/
def authenticate_user (st : ServerState) (u pw : List Nat) : Bool :=
  match alookup st.userCredentials u with
  | some stored => decide (stored = pw)
  | none => false

/-- Embedding of `ChatServer::create_user`: insert the pair and report `true` when the
username is absent, otherwise leave the store unchanged and report
`false`. -/
def create_user (st : ServerState) (u pw : List Nat) : Bool × ServerState :=
  match alookup st.userCredentials u with
  | none => (true, { st with userCredentials := (u, pw) :: st.userCredentials })
  | some _ => (false, st)

/-- Embedding of `ChatServer::broadcast`: walk the participants in order and deliver the
packet to every session other than `sender`.  The result is the list of
(session, packet) enqueue operations the loop performs. -/
def broadcast (participants : List Nat) (pkt : PacketV) (sender : Nat) :
    List (Nat × PacketV) :=
  match participants with
  | [] => []
  | s :: rest =>
    if s = sender then broadcast rest pkt sender
    else (s, pkt) :: broadcast rest pkt sender

/-- The bytes of the string literal `"System"`. -/
def systemName : List Nat := [83, 121, 115, 116, 101, 109]

/-- The bytes of the string literal `" has joined the chat."`. -/
def joinedSuffix : List Nat :=
  [32, 104, 97, 115, 32, 106, 111, 105, 110, 101, 100, 32, 116, 104, 101, 32,
   99, 104, 97, 116, 46]

/-- The `switch` of `ChatServer::handle_packet` on an already-parsed packet:
returns the updated server state and the list of (session, packet) deliveries
(`deliver` enqueues) it performs, in order.  Status-only kinds are logged and
ignored. -/
def handle_packet (st : ServerState) (sender : Nat) (p : PacketV) :
    ServerState × List (Nat × PacketV) :=
  match p with
  | .login u pw =>
    if authenticate_user st u pw then
      let st' := set_username st sender u
      (st', (sender, .loginSuccess) ::
        broadcast st'.participants (.chatMessage systemName (u ++ joinedSuffix)) sender)
    else (st, [(sender, .loginFailed)])
  | .createUser u pw =>
    match create_user st u pw with
    | (true, st') => (st', [(sender, .accountCreated)])
    | (false, st') => (st', [(sender, .accountExists)])
  | .chatMessage _ m =>
    let sender_name := get_username st sender
    if sender_name = [] then (st, [(sender, .loginFailed)])
    else (st, broadcast st.participants (.chatMessage sender_name m) sender)
  | _ => (st, [])

theorem broadcast_mem (parts : List Nat) (pkt : PacketV) (sender : Nat) :
    ∀ d ∈ broadcast parts pkt sender, d.1 ∈ parts ∧ d.1 ≠ sender ∧ d.2 = pkt := by
  induction parts with
  | nil =>
    intro d hd
    simp [broadcast] at hd
  | cons s rest ih =>
    intro d hd
    by_cases h : s = sender
    · rw [show broadcast (s :: rest) pkt sender = broadcast rest pkt sender from by
        simp only [broadcast, if_pos h]] at hd
      rcases ih d hd with ⟨h1, h2, h3⟩
      exact ⟨List.mem_cons_of_mem _ h1, h2, h3⟩
    · rw [show broadcast (s :: rest) pkt sender = (s, pkt) :: broadcast rest pkt sender from by
        simp only [broadcast, if_neg h]] at hd
      rcases List.mem_cons.mp hd with rfl | hmem
      · exact ⟨List.mem_cons_self _ _, h, rfl⟩
      · rcases ih d hmem with ⟨h1, h2, h3⟩
        exact ⟨List.mem_cons_of_mem _ h1, h2, h3⟩

theorem broadcast_map_fst (parts : List Nat) (pkt : PacketV) (sender : Nat) :
    (broadcast parts pkt sender).map Prod.fst
      = parts.filter (fun s => decide (s ≠ sender)) := by
  induction parts with
  | nil => rfl
  | cons s rest ih =>
    by_cases h : s = sender
    · simp [broadcast, h, ih]
    · simp [broadcast, h, ih]

/-- Claim C6: with a duplicate-free registry, `broadcast` enqueues the packet
exactly once on every registered session other than the sender, and every
enqueue it performs targets a registered non-sender session with exactly that
packet. -/
theorem broadcast_exactly_once (parts : List Nat) (pkt : PacketV) (sender : Nat)
    (hnd : parts.Nodup) :
    (∀ t ∈ parts, t ≠ sender →
        ((broadcast parts pkt sender).map Prod.fst).count t = 1)
      ∧ ∀ d ∈ broadcast parts pkt sender, d.1 ∈ parts ∧ d.1 ≠ sender ∧ d.2 = pkt := by
  refine ⟨?_, broadcast_mem parts pkt sender⟩
  intro t htmem htne
  rw [broadcast_map_fst]
  have hfnd : (parts.filter (fun s => decide (s ≠ sender))).Nodup := hnd.filter _
  have htf : t ∈ parts.filter (fun s => decide (s ≠ sender)) :=
    List.mem_filter.mpr ⟨htmem, by simp [htne]⟩
  exact List.count_eq_one_of_mem hfnd htf

/-- Witness for C6 at a concrete three-session registry. -/
theorem broadcast_exactly_once_witness :
    ([1, 2, 3] : List Nat).Nodup
      ∧ ((1 : Nat) ∈ ([1, 2, 3] : List Nat) ∧ (1 : Nat) ≠ 2
          ∧ ((broadcast [1, 2, 3] .loginSuccess 2).map Prod.fst).count 1 = 1) :=
  ⟨by decide,
    by decide, by decide,
    (broadcast_exactly_once [1, 2, 3] .loginSuccess 2 (by decide)).1 1 (by decide) (by decide)⟩

/-- Claim C4: a `ChatMessage` from a session with an empty username is
answered by exactly one `LoginFailed` delivery to that session; the state is
unchanged and nothing is broadcast. -/
theorem unauthenticated_chat_rejected (st : ServerState) (sender : Nat) (s m : List Nat)
    (h : get_username st sender = []) :
    handle_packet st sender (.chatMessage s m) = (st, [(sender, .loginFailed)]) := by
  simp [handle_packet, h]

/-- Witness for C4 at a concrete registry with two sessions and no logins. -/
theorem unauthenticated_chat_rejected_witness :
    get_username ⟨[1, 2], [], []⟩ 1 = []
      ∧ handle_packet ⟨[1, 2], [], []⟩ 1 (.chatMessage [7] [8])
          = (⟨[1, 2], [], []⟩, [(1, .loginFailed)]) :=
  ⟨rfl, unauthenticated_chat_rejected ⟨[1, 2], [], []⟩ 1 [7] [8] rfl⟩

/-- Claim C5: a `ChatMessage(s, m)` from a session with a non-empty username
is relayed as `ChatMessage(username, m)` to every other session — the packet
broadcast carries the session's authenticated username as sender, never the
client-supplied field `s`. -/
theorem authenticated_chat_rewrites_sender (st : ServerState) (sender : Nat)
    (s m : List Nat) (h : get_username st sender ≠ []) :
    (handle_packet st sender (.chatMessage s m)).2
        = broadcast st.participants (.chatMessage (get_username st sender) m) sender
      ∧ ∀ d ∈ (handle_packet st sender (.chatMessage s m)).2,
          d.2 = .chatMessage (get_username st sender) m := by
  have heq : (handle_packet st sender (.chatMessage s m)).2
      = broadcast st.participants (.chatMessage (get_username st sender) m) sender := by
    simp [handle_packet, h]
  refine ⟨heq, ?_⟩
  rw [heq]
  intro d hd
  exact (broadcast_mem _ _ _ d hd).2.2

/-- Witness for C5: a logged-in session's chat is relayed under its
authenticated name, not the spoofed sender field. -/
theorem authenticated_chat_rewrites_sender_witness :
    get_username ⟨[1, 2], [(1, [97])], []⟩ 1 ≠ []
      ∧ (handle_packet ⟨[1, 2], [(1, [97])], []⟩ 1 (.chatMessage [99] [8])).2
          = [(2, .chatMessage [97] [8])] :=
  ⟨by decide,
    by
      rw [(authenticated_chat_rewrites_sender ⟨[1, 2], [(1, [97])], []⟩ 1 [99] [8]
        (by decide)).1]
      decide⟩

/-- Claim C7: `CreateUser(u, p)` adds the pair and replies `AccountCreated`
when `u` is absent from the credential store, replies `AccountExists` leaving
the store unchanged when `u` is present, never touches any session's
username, and after a successful creation an identical `CreateUser` from any
session is answered `AccountExists`. -/
theorem create_user_semantics (st : ServerState) (sender sender2 : Nat)
    (u pw : List Nat) :
    (alookup st.userCredentials u = none →
        handle_packet st sender (.createUser u pw)
          = ({ st with userCredentials := (u, pw) :: st.userCredentials },
              [(sender, .accountCreated)]))
      ∧ (∀ v, alookup st.userCredentials u = some v →
          handle_packet st sender (.createUser u pw) = (st, [(sender, .accountExists)]))
      ∧ (handle_packet st sender (.createUser u pw)).1.usernames = st.usernames
      ∧ (alookup st.userCredentials u = none →
          handle_packet (handle_packet st sender (.createUser u pw)).1 sender2
              (.createUser u pw)
            = ((handle_packet st sender (.createUser u pw)).1,
                [(sender2, .accountExists)])) := by
  refine ⟨?_, ?_, ?_, ?_⟩
  · intro h
    simp [handle_packet, create_user, h]
  · intro v h
    simp [handle_packet, create_user, h]
  · rcases hl : alookup st.userCredentials u with _ | v
    · simp [handle_packet, create_user, hl]
    · simp [handle_packet, create_user, hl]
  · intro h
    have hfst : (handle_packet st sender (.createUser u pw)).1
        = { st with userCredentials := (u, pw) :: st.userCredentials } := by
      simp [handle_packet, create_user, h]
    rw [hfst]
    simp [handle_packet, create_user, alookup]

/-- Witness for C7: creating `"bob"` twice — the first succeeds, the second
(from another session) reports `AccountExists`. -/
theorem create_user_semantics_witness :
    alookup (⟨[1, 2], [], []⟩ : ServerState).userCredentials [98, 111, 98] = none
      ∧ handle_packet ⟨[1, 2], [], []⟩ 1 (.createUser [98, 111, 98] [120])
          = (⟨[1, 2], [], [([98, 111, 98], [120])]⟩, [(1, .accountCreated)])
      ∧ handle_packet (handle_packet ⟨[1, 2], [], []⟩ 1
            (.createUser [98, 111, 98] [120])).1 2 (.createUser [98, 111, 98] [120])
          = ((handle_packet ⟨[1, 2], [], []⟩ 1 (.createUser [98, 111, 98] [120])).1,
              [(2, .accountExists)]) :=
  ⟨rfl,
    (create_user_semantics ⟨[1, 2], [], []⟩ 1 2 [98, 111, 98] [120]).1 rfl,
    (create_user_semantics ⟨[1, 2], [], []⟩ 1 2 [98, 111, 98] [120]).2.2.2 rfl⟩
